import Mathlib

/-!
Verification of the fork-synchronization controller.

This file gives a shallow embedding of the per-repository synchronization
engine (`controller.js`: `startSync`, `syncRepository`, `initializeRepository`,
`checkForUpstreamChanges`, `mergeUpstreamChanges`), of the conflict resolver
(`modules/conflict-resolver.js`: `resolveConflicts` together with
`utils/llm-client.js`: `initializeLLMClient`), and of the repository-identifier
validation regex from the configuration module (`config.js`: `validateConfig`).

External collaborators (the git command wrapper, the LLM HTTP client, the
filesystem, the test runner) are modelled as an environment of `Except`-valued
oracles: each primitive the engine may invoke is a field of `GitEnv`
(resp. `ResolverEnv`), and a successful call returns `.ok` while a thrown
JavaScript exception is `.error msg` carrying the exception message.  The
embedding additionally instruments every collaborator invocation with a trace
event so that sequencing properties (ordering of commit/push, rollback order,
call counts) can be stated.  Logging calls in the source have no observable
effect on outcomes or collaborator state and are not modelled.
-/

/-- A git remote as returned by `git.getRemotes()`: a name and a URL. -/
structure Remote where
  name : String
  url : String
deriving Repr, DecidableEq

/-- The slice of `git.status()` consumed by the controller: the list of
conflicted file paths. -/
structure GitStatus where
  conflicted : List String
deriving Repr, DecidableEq

/-- Result contract of the conflict resolver:
`{ success: bool, error?: string }`. -/
structure ResolveResult where
  success : Bool
  error : Option String := none
deriving Repr, DecidableEq

/-- One collaborator invocation made by the engine, recorded in order.
`branchCmd` is the `git.branch([...])` call, `statusQ` is `git.status()`,
`resolve` is the call into the conflict resolver, `tests` is the post-merge
test-runner invocation. -/
inductive GitEvent where
  | checkIsRepo : GitEvent
  | clone : String → GitEvent
  | updateRemoteUrl : String → String → GitEvent
  | getRemotes : GitEvent
  | addRemote : String → String → GitEvent
  | fetch : List String → GitEvent
  | checkout : String → GitEvent
  | branchCmd : List String → GitEvent
  | revList : List String → GitEvent
  | revParse : List String → GitEvent
  | merge : List String → GitEvent
  | push : List String → GitEvent
  | statusQ : GitEvent
  | commit : String → GitEvent
  | reset : List String → GitEvent
  | resolve : List String → GitEvent
  | tests : GitEvent
deriving Repr, DecidableEq

/-- A trace of collaborator invocations, in execution order. -/
abbrev Trace := List GitEvent

/-- The environment of external collaborators seen by the controller.  Each
field gives the result of invoking the corresponding `GitClient` primitive
(or the conflict resolver / test runner) with the given arguments: `.ok` for
a normal return, `.error m` for a thrown exception with message `m`.
`resolveConflicts` never throws in the source (it catches internally), so it
returns a plain `ResolveResult`. -/
structure GitEnv where
  checkIsRepo : Except String Bool
  clone : String → Except String Unit
  updateRemoteUrl : String → String → Except String Unit
  getRemotes : Except String (List Remote)
  addRemote : String → String → Except String Unit
  fetch : List String → Except String Unit
  checkout : String → Except String Unit
  branch : List String → Except String Unit
  revList : List String → Except String String
  revParse : List String → Except String String
  merge : List String → Except String Unit
  push : List String → Except String Unit
  status : Except String GitStatus
  commit : String → Except String Unit
  reset : List String → Except String Unit
  resolveConflicts : List String → ResolveResult
  runTests : Except String Bool

/-- `listInfix needle hay` decides whether `needle` occurs contiguously
inside `hay`; this is the semantics of JavaScript `hay.includes(needle)`. -/
def listInfix (needle : List Char) : List Char → Bool
  | [] => needle.isEmpty
  | c :: rest => needle.isPrefixOf (c :: rest) || listInfix needle rest

/-- String-level containment test, the embedding of
`haystack.includes(needle)`. -/
def strContains (hay needle : String) : Bool :=
  listInfix needle.data hay.data

/-- A repository-pair entry of the configuration:
`{ upstream: "owner/repo:branch", fork: "owner/repo:branch" }`. -/
structure RepoPairCfg where
  upstream : String
  fork : String
deriving Repr, DecidableEq

/-- Account configuration: name, token and the configured repository pairs. -/
structure Account where
  name : String
  token : String
  repos : List RepoPairCfg
deriving Repr, DecidableEq

/-- The slice of the application configuration the engine branches on.
`reposBaseDir` and the LLM settings are consumed by unmodelled I/O (directory
naming) or forwarded opaquely to the resolver and are omitted. -/
structure AppConfig where
  runTestsAfterMerge : Bool
deriving Repr, DecidableEq

/-- Parsed form of an `"owner/repo:branch"` identifier, mirroring
`parseRepoBranchString` in `syncRepository`: split on `:` for the branch,
then on `/` for owner and repository name. -/
structure RepoInfo where
  repoFullName : String
  branch : String
  owner : String
  repoName : String
deriving Repr, DecidableEq

/-- Character-level split, the semantics of JavaScript
`str.split(sep)` for a single-character separator (the only form the
controller uses). -/
def splitOnChar (sep : Char) : List Char → List (List Char)
  | [] => [[]]
  | c :: rest =>
    match splitOnChar sep rest with
    | [] => [[]]
    | h :: t => if c = sep then [] :: h :: t else (c :: h) :: t

/-- String-level wrapper for `splitOnChar`. -/
def jsSplit (s : String) (sep : Char) : List String :=
  (splitOnChar sep s.data).map String.mk

/-- The semantics of JavaScript `str.trim()`: drop leading and trailing
whitespace. -/
def trimChars (cs : List Char) : List Char :=
  ((cs.dropWhile Char.isWhitespace).reverse.dropWhile Char.isWhitespace).reverse

/-- Embedding of `parseRepoBranchString`.  JavaScript array destructuring of
`split` takes the first two components; a missing component is modelled as
the empty string. -/
def parseRepoBranchString (s : String) : RepoInfo :=
  let parts := jsSplit s ':'
  let repoFullName := parts.getD 0 ""
  let branch := parts.getD 1 ""
  let nameParts := jsSplit repoFullName '/'
  { repoFullName := repoFullName
    branch := branch
    owner := nameParts.getD 0 ""
    repoName := nameParts.getD 1 "" }

/-- Result record of `mergeUpstreamChanges` (before it is folded into the
per-repository outcome): success flag, conflict/LLM flags, optional
`testsStatus` annotation added by the post-merge test gate, message and
error text. -/
structure MergeOutcome where
  success : Bool
  hadConflicts : Bool
  usedLLM : Bool
  testsStatus : Option String := none
  message : Option String := none
  error : Option String := none
deriving Repr, DecidableEq

/-- The per-repository `SyncOutcome` record produced by `syncRepository`.
Fields that the source leaves `undefined` on some paths are `Option`s. -/
structure SyncOutcome where
  repository : String
  account : String
  success : Bool
  status : String
  hadConflicts : Option Bool := none
  usedLLM : Option Bool := none
  testsStatus : Option String := none
  message : Option String := none
  error : Option String := none
deriving Repr, DecidableEq

/-- Outcome built by the outer `catch` of `mergeUpstreamChanges`:
`Failed to merge changes into <fork> from upstream/<upstream>: <msg>`, with
the mutable `hadConflicts` / `usedLLM` flags at their values at the point
the exception escaped. -/
def mergeFailureOutcome (forkBranch upstreamBranch : String) (hc ul : Bool)
    (msg : String) : MergeOutcome :=
  { success := false
    hadConflicts := hc
    usedLLM := ul
    error := some ("Failed to merge changes into " ++ forkBranch ++
      " from upstream/" ++ upstreamBranch ++ ": " ++ msg) }

/-- The fetch-and-checkout tail of `initializeRepository`: fetch all
remotes, check out the fork branch, then attempt to bind the tracking branch
with `git.branch([--set-upstream-to ...])`, whose failure is non-fatal in
the source (its result is ignored). -/
def initFetchCheckout (env : GitEnv) (forkBranch : String) (tr : Trace) :
    Bool × Trace :=
  match env.fetch ["--all"] with
  | .error _ => (false, tr ++ [.fetch ["--all"]])
  | .ok _ =>
    match env.checkout forkBranch with
    | .error _ => (false, tr ++ [.fetch ["--all"], .checkout forkBranch])
    | .ok _ =>
      (true, tr ++ [.fetch ["--all"], .checkout forkBranch,
        .branchCmd ["--set-upstream-to", "origin/" ++ forkBranch]])

/-- The upstream-remote maintenance step of `initializeRepository`: add the
`upstream` remote if missing, update its URL if it differs from the expected
one, then fetch and check out the fork branch (continuation
`initFetchCheckout`). -/
def initRemotes (env : GitEnv) (forkBranch upstreamRepoName : String)
    (tr : Trace) : Bool × Trace :=
  match env.getRemotes with
  | .error _ => (false, tr ++ [.getRemotes])
  | .ok remotes =>
    let tr1 := tr ++ [.getRemotes]
    let expectedUpstreamUrl := "https://github.com/" ++ upstreamRepoName ++ ".git"
    match remotes.find? (fun r => r.name == "upstream") with
    | none =>
      match env.addRemote "upstream" expectedUpstreamUrl with
      | .error _ => (false, tr1 ++ [.addRemote "upstream" expectedUpstreamUrl])
      | .ok _ =>
        initFetchCheckout env forkBranch
          (tr1 ++ [.addRemote "upstream" expectedUpstreamUrl])
    | some r =>
      if r.url ≠ expectedUpstreamUrl then
        match env.updateRemoteUrl "upstream" expectedUpstreamUrl with
        | .error _ =>
          (false, tr1 ++ [.updateRemoteUrl "upstream" expectedUpstreamUrl])
        | .ok _ =>
          initFetchCheckout env forkBranch
            (tr1 ++ [.updateRemoteUrl "upstream" expectedUpstreamUrl])
      else
        initFetchCheckout env forkBranch tr1

/-- Embedding of `initializeRepository(git, forkRepoName, forkBranch,
upstreamRepoName, account, sessionLogger)`, decomposed into straight-line
helpers (`initRemotes`, `initFetchCheckout`).  Returns the boolean the
source returns — any caught exception yields `false` — together with the
trace of collaborator invocations. -/
def initializeRepository (env : GitEnv)
    (forkRepoName forkBranch upstreamRepoName token : String) : Bool × Trace :=
  match env.checkIsRepo with
  | .error _ => (false, [.checkIsRepo])
  | .ok isRepo =>
    let forkUrl := "https://" ++ token ++ "@github.com/" ++ forkRepoName ++ ".git"
    if isRepo then
      match env.updateRemoteUrl "origin" forkUrl with
      | .error _ => (false, [.checkIsRepo, .updateRemoteUrl "origin" forkUrl])
      | .ok _ =>
        initRemotes env forkBranch upstreamRepoName
          [.checkIsRepo, .updateRemoteUrl "origin" forkUrl]
    else
      match env.clone forkUrl with
      | .error _ => (false, [.checkIsRepo, .clone forkUrl])
      | .ok _ =>
        initRemotes env forkBranch upstreamRepoName
          [.checkIsRepo, .clone forkUrl]

/-- Embedding of `checkForUpstreamChanges(git, forkBranch, upstreamBranch,
sessionLogger)`.  The source rethrows any failure (its `catch` logs and
rethrows), so the result is `Except`; on success it returns whether
`git.revList([<fork>..upstream/<up>])` produced non-whitespace output. -/
def checkForUpstreamChanges (env : GitEnv)
    (forkBranch upstreamBranch : String) : Except String Bool × Trace :=
  match env.checkout forkBranch with
  | .error e => (.error e, [.checkout forkBranch])
  | .ok _ =>
    match env.fetch ["upstream"] with
    | .error e => (.error e, [.checkout forkBranch, .fetch ["upstream"]])
    | .ok _ =>
      let arg := forkBranch ++ ".." ++ "upstream/" ++ upstreamBranch
      match env.revList [arg] with
      | .error e =>
        (.error e, [.checkout forkBranch, .fetch ["upstream"], .revList [arg]])
      | .ok out =>
        (.ok (decide (0 < (trimChars out.data).length)),
          [.checkout forkBranch, .fetch ["upstream"], .revList [arg]])

/-- Embedding of `mergeUpstreamChanges(git, forkBranch, upstreamBranch,
config, sessionLogger)`.  The structure mirrors the source:

* clean merge: push, report success;
* merge error whose message contains `CONFLICT` or `failed to merge`:
  query status; if the conflicted list is empty, abort the merge and fail with
  the fixed message (the source additionally regex-parses candidate paths out
  of the error text, but only into a log line — never into the resolution,
  so that computation is not modelled); otherwise call the resolver;
* resolver success: commit the fixed automated message, then push;
* resolver failure: try `merge --abort`, on failure try
  `reset --hard <originalHead>` whose own failure is only logged, then return
  the resolver-failure outcome;
* any other escaped exception is converted by the outer catch into
  `mergeFailureOutcome` with the current flag values. -/
def mergeUpstreamChanges (env : GitEnv) (forkBranch upstreamBranch : String) :
    MergeOutcome × Trace :=
  match env.checkout forkBranch with
  | .error e =>
    (mergeFailureOutcome forkBranch upstreamBranch false false e,
      [.checkout forkBranch])
  | .ok _ =>
    match env.revParse ["HEAD"] with
    | .error e =>
      (mergeFailureOutcome forkBranch upstreamBranch false false e,
        [.checkout forkBranch, .revParse ["HEAD"]])
    | .ok originalHead =>
      let tr0 : Trace := [.checkout forkBranch, .revParse ["HEAD"],
        .merge ["upstream/" ++ upstreamBranch]]
      match env.merge ["upstream/" ++ upstreamBranch] with
      | .ok _ =>
        (match env.push ["origin", forkBranch] with
        | .ok _ =>
          ({ success := true, hadConflicts := false, usedLLM := false
             message := some ("Successfully merged upstream/" ++ upstreamBranch ++
               " into " ++ forkBranch ++ " and pushed to origin/" ++ forkBranch) },
            tr0 ++ [.push ["origin", forkBranch]])
        | .error e =>
          (mergeFailureOutcome forkBranch upstreamBranch false false e,
            tr0 ++ [.push ["origin", forkBranch]]))
      | .error mergeError =>
        if strContains mergeError "CONFLICT" || strContains mergeError "failed to merge" then
          match env.status with
          | .error e =>
            (mergeFailureOutcome forkBranch upstreamBranch true false e,
              tr0 ++ [.statusQ])
          | .ok st =>
            if st.conflicted.isEmpty then
              match env.merge ["--abort"] with
              | .error e =>
                (mergeFailureOutcome forkBranch upstreamBranch true false e,
                  tr0 ++ [.statusQ, .merge ["--abort"]])
              | .ok _ =>
                ({ success := false, hadConflicts := true, usedLLM := false
                   error := some "Failed to identify conflicted files for resolution."
                   message := some "Merge aborted as conflicted files could not be determined." },
                  tr0 ++ [.statusQ, .merge ["--abort"]])
            else
              let conflictedFiles := st.conflicted
              let resolveResult := env.resolveConflicts conflictedFiles
              let trR := tr0 ++ [.statusQ, .resolve conflictedFiles]
              if resolveResult.success then
                let cmsg := "Automated merge conflict resolution from upstream/" ++ upstreamBranch
                match env.commit cmsg with
                | .error e =>
                  (mergeFailureOutcome forkBranch upstreamBranch true true e,
                    trR ++ [.commit cmsg])
                | .ok _ =>
                  match env.push ["origin", forkBranch] with
                  | .error e =>
                    (mergeFailureOutcome forkBranch upstreamBranch true true e,
                      trR ++ [.commit cmsg, .push ["origin", forkBranch]])
                  | .ok _ =>
                    ({ success := true, hadConflicts := true, usedLLM := true
                       message := some ("Successfully resolved " ++
                         toString conflictedFiles.length ++ " conflicts in " ++
                         forkBranch ++ " from upstream/" ++ upstreamBranch ++
                         " and pushed changes") },
                      trR ++ [.commit cmsg, .push ["origin", forkBranch]])
              else
                let trA : Trace :=
                  match env.merge ["--abort"] with
                  | .ok _ => trR ++ [.merge ["--abort"]]
                  | .error _ =>
                    trR ++ [.merge ["--abort"], .reset ["--hard", originalHead]]
                ({ success := false, hadConflicts := true, usedLLM := true
                   error := some ("Failed to resolve conflicts for " ++ forkBranch ++
                     " from upstream/" ++ upstreamBranch ++ ": " ++
                     (resolveResult.error.getD "undefined"))
                   message := some ("Merge of upstream/" ++ upstreamBranch ++
                     " into " ++ forkBranch ++
                     " aborted due to unresolvable conflicts.") },
                  trA)
        else
          (mergeFailureOutcome forkBranch upstreamBranch false false mergeError, tr0)

/-- Embedding of `syncRepository(repoConfig, account, config)`.  The
filesystem and logger preamble has no observable effect on the outcome and
is omitted.  A thrown error from `checkForUpstreamChanges` is caught by the
surrounding `try` and converted to an `error` outcome carrying the message. -/
def syncRepository (env : GitEnv) (repoConfig : RepoPairCfg)
    (account : Account) (config : AppConfig) : SyncOutcome × Trace :=
  let upstreamInfo := parseRepoBranchString repoConfig.upstream
  let forkInfo := parseRepoBranchString repoConfig.fork
  match initializeRepository env forkInfo.repoFullName forkInfo.branch
      upstreamInfo.repoFullName account.token with
  | (false, tr1) =>
    ({ repository := forkInfo.repoFullName, account := account.name
       success := false, status := "error"
       error := some "Failed to initialize repository" }, tr1)
  | (true, tr1) =>
    match checkForUpstreamChanges env forkInfo.branch upstreamInfo.branch with
    | (.error e, tr2) =>
      ({ repository := forkInfo.repoFullName, account := account.name
         success := false, status := "error", error := some e }, tr1 ++ tr2)
    | (.ok false, tr2) =>
      ({ repository := forkInfo.repoFullName, account := account.name
         success := true, status := "skipped"
         message := some "No upstream changes to sync" }, tr1 ++ tr2)
    | (.ok true, tr2) =>
      let mrtr := mergeUpstreamChanges env forkInfo.branch upstreamInfo.branch
      let mr0 := mrtr.1
      let tr3 := mrtr.2
      let gated : MergeOutcome × Trace :=
        if config.runTestsAfterMerge && mr0.success then
          match env.runTests with
          | .ok true => ({ mr0 with testsStatus := some "passed" }, [.tests])
          | .ok false => ({ mr0 with testsStatus := some "failed" }, [.tests])
          | .error _ => ({ mr0 with testsStatus := some "error" }, [.tests])
        else (mr0, [])
      let mr := gated.1
      ({ repository := forkInfo.repoFullName, account := account.name
         success := mr.success
         status := if mr.success then "synced" else "error"
         hadConflicts := some mr.hadConflicts
         usedLLM := some mr.usedLLM
         testsStatus := mr.testsStatus
         message := mr.message
         error := mr.error }, tr1 ++ tr2 ++ tr3 ++ gated.2)

/-- The aggregate results record built by `startSync`. -/
structure BatchResults where
  success : Bool
  syncedRepos : Nat
  failedRepos : Nat
  skippedRepos : Nat
  details : List SyncOutcome
deriving Repr, DecidableEq

/-- Options accepted by `startSync`. -/
structure SyncOptions where
  accountFilter : Option String := none
  repoFilter : Option String := none
deriving Repr, DecidableEq

/-- Result of `startSync`: either the early account-filter-mismatch return
`{ success: false, message }` or the completed batch results. -/
inductive SyncRunResult where
  | noMatch : String → SyncRunResult
  | completed : BatchResults → SyncRunResult
deriving Repr, DecidableEq

/-- The fallback repository identifier used by the orchestrator when a pair
throws: `repoConfig.fork || repoConfig.upstream ||` the literal
`unknown repository`. -/
def repoIdentifier (rc : RepoPairCfg) : String :=
  if rc.fork ≠ "" then rc.fork
  else if rc.upstream ≠ "" then rc.upstream
  else "unknown repository"

/-- One iteration of the orchestrator loop in `startSync`: run the pair,
push its outcome (or, if it threw, a synthesized `error` outcome), and update
the counters and the overall success flag. -/
def processRepo (runPair : RepoPairCfg → Except String SyncOutcome)
    (accountName : String) (acc : BatchResults) (rc : RepoPairCfg) : BatchResults :=
  match runPair rc with
  | .ok repoResult =>
    let acc1 := { acc with details := acc.details ++ [repoResult] }
    if repoResult.success then
      if repoResult.status = "synced" then
        { acc1 with syncedRepos := acc1.syncedRepos + 1 }
      else if repoResult.status = "skipped" then
        { acc1 with skippedRepos := acc1.skippedRepos + 1 }
      else acc1
    else
      { acc1 with failedRepos := acc1.failedRepos + 1, success := false }
  | .error msg =>
    { acc with
      failedRepos := acc.failedRepos + 1
      success := false
      details := acc.details ++
        [{ repository := repoIdentifier rc, account := accountName
           success := false, status := "error", error := some msg }] }

/-- Embedding of the orchestrator `startSync(config, options)`.  The call
`await syncRepository(repoConfig, account, config)` sits inside a `try` whose
`catch` converts an escaped exception into an `error` outcome; that boundary
is modelled by the `runPair` parameter, which returns `.error msg` exactly
when the per-pair call throws with message `msg`.  Report emission
(`sendSyncReport`) only performs I/O and is not modelled. -/
def startSync (runPair : RepoPairCfg → Except String SyncOutcome)
    (account : Account) (options : SyncOptions) : SyncRunResult :=
  match options.accountFilter with
  | some f =>
    if account.name ≠ f then .noMatch "Account name does not match filter"
    else
      let reposToProcess :=
        match options.repoFilter with
        | some rf => account.repos.filter (fun rc : RepoPairCfg => rc.fork == rf || rc.upstream == rf)
        | none => account.repos
      .completed (reposToProcess.foldl (processRepo runPair account.name)
        { success := true, syncedRepos := 0, failedRepos := 0,
          skippedRepos := 0, details := [] })
  | none =>
    let reposToProcess :=
      match options.repoFilter with
      | some rf => account.repos.filter (fun rc : RepoPairCfg => rc.fork == rf || rc.upstream == rf)
      | none => account.repos
    .completed (reposToProcess.foldl (processRepo runPair account.name)
      { success := true, syncedRepos := 0, failedRepos := 0,
        skippedRepos := 0, details := [] })

/-- LLM configuration as consumed by `initializeLLMClient`: provider, API key
and model.  A missing or empty field is modelled as the empty string (both
are falsy in the source check). -/
structure LLMConfig where
  provider : String
  apiKey : String
  model : String
deriving Repr, DecidableEq

/-- Character-list lowercasing, the semantics of JavaScript
`str.toLowerCase()` for the ASCII provider names compared here. -/
def strToLower (s : String) : String :=
  String.mk (s.data.map Char.toLower)

/-- Embedding of `initializeLLMClient(config)` from `utils/llm-client.js`:
throws when a required field is missing, or when the provider (lowercased)
is not `openai`; otherwise constructs the client and returns. -/
def initializeLLMClient (cfg : LLMConfig) : Except String Unit :=
  if cfg.apiKey = "" || cfg.provider = "" || cfg.model = "" then
    .error "LLM client configuration is missing or incomplete. apiKey, provider, and model are required."
  else if strToLower cfg.provider = "openai" then
    .ok ()
  else
    .error ("Unsupported LLM provider: " ++ cfg.provider ++ ". Currently, only openai is supported.")

/-- Events recorded by the conflict resolver: a text-generation request, a
file write, a `git add`, and a `git commit`. -/
inductive ResolverEvent where
  | genText : String → ResolverEvent
  | fsWrite : String → ResolverEvent
  | gitAdd : List String → ResolverEvent
  | gitCommit : String → ResolverEvent
deriving Repr, DecidableEq

/-- External collaborators of the conflict resolver: the filesystem, the
`git.getFileContent` / `git.add` / `git.commit` primitives and the
text-generation call. -/
structure ResolverEnv where
  readFile : String → Except String String
  getFileContent : String → String → Except String String
  generateText : String → Except String String
  writeFile : String → String → Except String Unit
  add : List String → Except String Unit
  commit : String → Except String Unit

/-- The prompt assembled per conflicted file (template literal in the source;
reproduced without the inline code-comment text). -/
def resolverPrompt (filePath oursContent baseContent fileContent : String) : String :=
  "\nThe following file has merge conflicts: " ++ filePath ++
  "\n\n--- OURS (Current branch) ---\n" ++ oursContent ++
  "\n--- END OURS ---\n\n--- THEIRS (Branch being merged) ---\n" ++ baseContent ++
  "\n--- END THEIRS ---\n\n--- CONFLICTED FILE CONTENT ---\n" ++ fileContent ++
  "\n--- END CONFLICTED FILE CONTENT ---\n\nPlease resolve the conflicts in the file content.\n" ++
  "Analyze the changes from OURS and THEIRS against the CONFLICTED FILE CONTENT.\n" ++
  "Your goal is to integrate the changes from THEIRS into OURS, preserving the functionality of OURS while incorporating the updates from THEIRS.\n" ++
  "Output ONLY the fully resolved file content. Do not include any explanations, comments, or markdown formatting around the code.\n" ++
  "Ensure the output is ready to be written directly back to the file.\n"

/-- The per-file loop of `resolveConflicts`: process files in order, stopping
at the first failure (`break` in the source).  Returns the final value of the
`allResolved` flag together with the recorded events.  `getFileContent`
failures are absorbed by `.catch` returning `Unavailable` in the source. -/
def resolveLoop (env : ResolverEnv) : List String → Bool × List ResolverEvent
  | [] => (true, [])
  | filePath :: rest =>
    match env.readFile filePath with
    | .error _ => (false, [])
    | .ok fileContent =>
      let baseContent :=
        match env.getFileContent "MERGE_HEAD" filePath with
        | .ok s => s
        | .error _ => "Unavailable"
      let oursContent :=
        match env.getFileContent "HEAD" filePath with
        | .ok s => s
        | .error _ => "Unavailable"
      let prompt := resolverPrompt filePath oursContent baseContent fileContent
      match env.generateText prompt with
      | .error _ => (false, [.genText prompt])
      | .ok resolvedContent =>
        if resolvedContent ≠ "" then
          match env.writeFile filePath resolvedContent with
          | .error _ => (false, [.genText prompt, .fsWrite filePath])
          | .ok _ =>
            match env.add [filePath] with
            | .error _ =>
              (false, [.genText prompt, .fsWrite filePath, .gitAdd [filePath]])
            | .ok _ =>
              let restRes := resolveLoop env rest
              (restRes.1,
                [.genText prompt, .fsWrite filePath, .gitAdd [filePath]] ++ restRes.2)
        else (false, [.genText prompt])

/-- Embedding of `resolveConflicts(git, conflictedFiles, llmConfig,
sessionLogger)` from `modules/conflict-resolver.js`: initialize the LLM
client (failure short-circuits), run the per-file loop, then commit when all
files resolved and the list was non-empty; an empty list returns success
directly. -/
def resolveConflicts (env : ResolverEnv) (conflictedFiles : List String)
    (llmConfig : LLMConfig) : ResolveResult × List ResolverEvent :=
  match initializeLLMClient llmConfig with
  | .error e =>
    ({ success := false, error := some ("LLM client initialization failed: " ++ e) }, [])
  | .ok _ =>
    let loopRes := resolveLoop env conflictedFiles
    let allResolved := loopRes.1
    let evs := loopRes.2
    if allResolved && decide (0 < conflictedFiles.length) then
      let cmsg := "Automated merge conflict resolution by LLM for " ++
        toString conflictedFiles.length ++ " file(s)"
      match env.commit cmsg with
      | .ok _ => ({ success := true }, evs ++ [.gitCommit cmsg])
      | .error ce =>
        ({ success := false, error := some ("Failed to commit changes: " ++ ce) },
          evs ++ [.gitCommit cmsg])
    else if conflictedFiles.length = 0 then
      ({ success := true }, evs)
    else
      ({ success := false, error := some "LLM failed to resolve all conflicts." }, evs)

/-- Matcher for the pattern `:[^:]+$`: a colon followed by a non-empty
colon-free rest. -/
def matchColonTail : List Char → Bool
  | [] => false
  | d :: z => decide (d = ':') && !z.isEmpty && z.all (fun e => decide (e ≠ ':'))

/-- Matcher for the tail pattern `[^\x2f]+:[^:]+$` of the identifier regex:
a non-empty slash-free segment, a colon, then a non-empty colon-free rest.
Written as a backtracking recursion over the characters. -/
def matchYZ : List Char → Bool
  | [] => false
  | c :: rest => decide (c ≠ '/') && (matchColonTail rest || matchYZ rest)

/-- Scanner for the part of the identifier after at least one leading
non-slash character: find the (first) slash and hand the rest to `matchYZ`. -/
def matchAfterOwner : List Char → Bool
  | [] => false
  | c :: rest => if c = '/' then matchYZ rest else matchAfterOwner rest

/-- Embedding of the test of the identifier-format regular expression
`repoBranchRegex = /^[^\x2f]+\x2f[^\x2f]+:[^:]+$/` used by
`validateConfig` on each `upstream` and `fork` entry. -/
def repoBranchRegexTest (s : String) : Bool :=
  match s.data with
  | [] => false
  | c :: rest => if c = '/' then false else matchAfterOwner rest

/-- Embedding of the per-entry identifier validation performed by
`validateConfig` on a repository pair: both `upstream` and `fork` must be
non-empty strings matching the regex, otherwise an error is thrown. -/
def validateRepoEntry (rc : RepoPairCfg) : Except String Unit :=
  if rc.upstream = "" then
    .error "Missing or invalid upstream field in repository entry. Must be a string."
  else if rc.fork = "" then
    .error "Missing or invalid fork field in repository entry. Must be a string."
  else if !repoBranchRegexTest rc.upstream then
    .error ("Invalid upstream format: " ++ rc.upstream ++ ". Must be owner/repo:branch")
  else if !repoBranchRegexTest rc.fork then
    .error ("Invalid fork format: " ++ rc.fork ++ ". Must be owner/repo:branch")
  else
    .ok ()

/-- Recognizes the events C7 forbids on the skip path: a merge attempt, a
resolver invocation, or a push. -/
def isMergeResolvePushEvent : GitEvent → Bool
  | .merge _ => true
  | .resolve _ => true
  | .push _ => true
  | _ => false

/-- Recognizes a push invocation. -/
def isPushEvent : GitEvent → Bool
  | .push _ => true
  | _ => false

/-- Recognizes a clone invocation. -/
def isCloneEvent : GitEvent → Bool
  | .clone _ => true
  | _ => false

/-- Recognizes the rollback operations of the engine: `merge --abort` and
any `reset`. -/
def isRollbackEvent : GitEvent → Bool
  | .merge args => decide (args = ["--abort"])
  | .reset _ => true
  | _ => false

/-- Recognizes a commit or a push invocation (used to state the
commit-before-push ordering). -/
def isCommitOrPushEvent : GitEvent → Bool
  | .commit _ => true
  | .push _ => true
  | _ => false

/-- The outcome the orchestrator records for one pair: the engine result on
a normal return, or the synthesized `error` outcome when the pair threw. -/
def outcomeOfPair (runPair : RepoPairCfg → Except String SyncOutcome)
    (accountName : String) (rc : RepoPairCfg) : SyncOutcome :=
  match runPair rc with
  | .ok o => o
  | .error msg =>
    { repository := repoIdentifier rc, account := accountName
      success := false, status := "error", error := some msg }

/-- The identifier format described by the specification, written from the
spec words for comparison with the source regex: an identifier splits as
`owner`, a slash, a slash-free middle segment, a colon, and a branch, where
owner and middle are non-empty and slash-free and the branch is non-empty
and colon-free. -/
def SpecRepoIdFormat (s : String) : Prop :=
  ∃ x y z : List Char, s.data = x ++ '/' :: (y ++ ':' :: z) ∧
    x ≠ [] ∧ '/' ∉ x ∧ y ≠ [] ∧ '/' ∉ y ∧ z ≠ [] ∧ ':' ∉ z

/-- Witness fixture: the repository pair used by concrete evaluations. -/
def wRc : RepoPairCfg := { upstream := "up/repo:main", fork := "user/fork:dev" }

/-- Witness fixture: the account used by concrete evaluations. -/
def wAccount : Account := { name := "test-user", token := "user-token", repos := [wRc] }

/-- Witness fixture: application configuration with the test gate off. -/
def wConfig : AppConfig := { runTestsAfterMerge := false }

/-- Witness fixture: a fully cooperative collaborator environment (repo
exists, drift present, clean merge). -/
def wGitEnvBase : GitEnv where
  checkIsRepo := .ok true
  clone := fun _ => .ok ()
  updateRemoteUrl := fun _ _ => .ok ()
  getRemotes := .ok [{ name := "origin", url := "https://user-token@github.com/user/fork.git" },
    { name := "upstream", url := "https://github.com/up/repo.git" }]
  addRemote := fun _ _ => .ok ()
  fetch := fun _ => .ok ()
  checkout := fun _ => .ok ()
  branch := fun _ => .ok ()
  revList := fun _ => .ok "onecommit"
  revParse := fun _ => .ok "mock-HEAD"
  merge := fun _ => .ok ()
  push := fun _ => .ok ()
  status := .ok { conflicted := [] }
  commit := fun _ => .ok ()
  reset := fun _ => .ok ()
  resolveConflicts := fun _ => { success := true }
  runTests := .ok true

/-- Witness fixture: merge conflicts, resolver succeeds. -/
def wGitEnvConflictOk : GitEnv :=
  { wGitEnvBase with
    merge := fun args => if args == ["--abort"] then .ok () else .error "Merge failed with CONFLICTS"
    status := .ok { conflicted := ["file1.js"] } }

/-- Witness fixture: merge conflicts, resolver fails, abort succeeds. -/
def wGitEnvResolverFail : GitEnv :=
  { wGitEnvConflictOk with
    resolveConflicts := fun _ => { success := false, error := some "LLM dun goofed" } }

/-- Witness fixture: merge conflicts, resolver fails, abort fails, reset
succeeds. -/
def wGitEnvResetOk : GitEnv :=
  { wGitEnvBase with
    merge := fun args =>
      if args == ["--abort"] then .error "abort failed" else .error "Merge failed with CONFLICTS"
    status := .ok { conflicted := ["file1.js"] }
    resolveConflicts := fun _ => { success := false, error := some "LLM dun goofed" } }

/-- Witness fixture: as `wGitEnvResetOk` but the hard reset fails as well. -/
def wGitEnvResetFail : GitEnv :=
  { wGitEnvResetOk with reset := fun _ => .error "reset failed" }

/-- Witness fixture: merge reports a conflict but status lists no conflicted
files; the abort succeeds. -/
def wGitEnvEmptyConflict : GitEnv :=
  { wGitEnvBase with
    merge := fun args => if args == ["--abort"] then .ok () else .error "Merge failed with CONFLICTS" }

/-- Witness fixture: no upstream drift (empty rev-list output). -/
def wGitEnvNoDrift : GitEnv :=
  { wGitEnvBase with revList := fun _ => .ok "" }

/-- Witness fixture: existing working copy whose upstream remote URL differs
from the expected one. -/
def wGitEnvStaleUpstream : GitEnv :=
  { wGitEnvBase with
    getRemotes := .ok [{ name := "origin", url := "https://user-token@github.com/user/fork.git" },
      { name := "upstream", url := "https://some-other-url.com/up/repo.git" }]
    revList := fun _ => .ok "" }

/-- Witness fixture: a second configured pair for batch runs. -/
def wRc2 : RepoPairCfg := { upstream := "up/repo2:stable", fork := "user/fork2:feature" }

/-- Witness fixture: account with two pairs for the orchestrator theorem. -/
def wAccount2 : Account :=
  { name := "test-user", token := "user-token", repos := [wRc, wRc2] }

/-- Witness fixture: per-pair runner whose first pair throws and whose
second returns a skipped outcome. -/
def wRunPair : RepoPairCfg → Except String SyncOutcome := fun rc =>
  if rc = wRc then .error "Git boom!"
  else .ok { repository := "user/fork2"
             account := "test-user"
             success := true
             status := "skipped"
             message := some "No upstream changes to sync" }

/-- Witness fixture: resolver environment whose collaborators all succeed. -/
def wResolverEnv : ResolverEnv where
  readFile := fun _ => .ok "conflicted"
  getFileContent := fun _ _ => .ok "content"
  generateText := fun _ => .ok "resolved"
  writeFile := fun _ _ => .ok ()
  add := fun _ => .ok ()
  commit := fun _ => .ok ()

/-- Witness fixture: an LLM configuration with an unsupported provider. -/
def wLLMConfigBad : LLMConfig := { provider := "anthropic", apiKey := "key", model := "gpt-4" }

/-- Witness fixture: a valid LLM configuration. -/
def wLLMConfigGood : LLMConfig := { provider := "openai", apiKey := "key", model := "gpt-4" }

theorem listIsPrefixOf_self (l : List Char) : l.isPrefixOf l = true := by
  induction l with
  | nil => rfl
  | cons c t ih => simp [List.isPrefixOf, ih]

theorem listInfix_self (l : List Char) : listInfix l l = true := by
  cases l with
  | nil => rfl
  | cons c t => simp [listInfix, listIsPrefixOf_self]

theorem listInfix_append_left (a b : List Char) : listInfix b (a ++ b) = true := by
  induction a with
  | nil => simpa using listInfix_self b
  | cons c t ih => simp [listInfix, ih]

theorem strContains_append_right (a b : String) : strContains (a ++ b) b = true := by
  have h : (a ++ b).data = a.data ++ b.data := String.data_append a b
  simp [strContains, h, listInfix_append_left]

theorem initFetchCheckout_filter_mrp (env : GitEnv) (b : String) (tr : Trace) :
    ((initFetchCheckout env b tr).2.filter isMergeResolvePushEvent) =
      tr.filter isMergeResolvePushEvent := by
  simp only [initFetchCheckout]
  repeat' split
  all_goals simp [List.filter_append, isMergeResolvePushEvent]

theorem initRemotes_filter_mrp (env : GitEnv) (b c : String) (tr : Trace) :
    ((initRemotes env b c tr).2.filter isMergeResolvePushEvent) =
      tr.filter isMergeResolvePushEvent := by
  simp only [initRemotes]
  repeat' split
  all_goals simp [initFetchCheckout_filter_mrp, List.filter_append,
    isMergeResolvePushEvent]

theorem initializeRepository_filter_mrp (env : GitEnv) (a b c d : String) :
    ((initializeRepository env a b c d).2.filter isMergeResolvePushEvent) = [] := by
  simp only [initializeRepository]
  repeat' split
  all_goals simp [initRemotes_filter_mrp, List.filter_append, isMergeResolvePushEvent]

theorem initFetchCheckout_filter_push (env : GitEnv) (b : String) (tr : Trace) :
    ((initFetchCheckout env b tr).2.filter isPushEvent) = tr.filter isPushEvent := by
  simp only [initFetchCheckout]
  repeat' split
  all_goals simp [List.filter_append, isPushEvent]

theorem initRemotes_filter_push (env : GitEnv) (b c : String) (tr : Trace) :
    ((initRemotes env b c tr).2.filter isPushEvent) = tr.filter isPushEvent := by
  simp only [initRemotes]
  repeat' split
  all_goals simp [initFetchCheckout_filter_push, List.filter_append, isPushEvent]

theorem initializeRepository_filter_push (env : GitEnv) (a b c d : String) :
    ((initializeRepository env a b c d).2.filter isPushEvent) = [] := by
  simp only [initializeRepository]
  repeat' split
  all_goals simp [initRemotes_filter_push, List.filter_append, isPushEvent]

theorem initFetchCheckout_filter_rollback (env : GitEnv) (b : String) (tr : Trace) :
    ((initFetchCheckout env b tr).2.filter isRollbackEvent) = tr.filter isRollbackEvent := by
  simp only [initFetchCheckout]
  repeat' split
  all_goals simp [List.filter_append, isRollbackEvent]

theorem initRemotes_filter_rollback (env : GitEnv) (b c : String) (tr : Trace) :
    ((initRemotes env b c tr).2.filter isRollbackEvent) = tr.filter isRollbackEvent := by
  simp only [initRemotes]
  repeat' split
  all_goals simp [initFetchCheckout_filter_rollback, List.filter_append, isRollbackEvent]

theorem initializeRepository_filter_rollback (env : GitEnv) (a b c d : String) :
    ((initializeRepository env a b c d).2.filter isRollbackEvent) = [] := by
  simp only [initializeRepository]
  repeat' split
  all_goals simp [initRemotes_filter_rollback, List.filter_append, isRollbackEvent]

theorem initFetchCheckout_filter_clone (env : GitEnv) (b : String) (tr : Trace) :
    ((initFetchCheckout env b tr).2.filter isCloneEvent) = tr.filter isCloneEvent := by
  simp only [initFetchCheckout]
  repeat' split
  all_goals simp [List.filter_append, isCloneEvent]

theorem initRemotes_filter_clone (env : GitEnv) (b c : String) (tr : Trace) :
    ((initRemotes env b c tr).2.filter isCloneEvent) = tr.filter isCloneEvent := by
  simp only [initRemotes]
  repeat' split
  all_goals simp [initFetchCheckout_filter_clone, List.filter_append, isCloneEvent]

theorem checkForUpstreamChanges_filter_mrp (env : GitEnv) (fb ub : String) :
    ((checkForUpstreamChanges env fb ub).2.filter isMergeResolvePushEvent) = [] := by
  simp only [checkForUpstreamChanges]
  repeat' split
  all_goals simp [isMergeResolvePushEvent]

theorem checkForUpstreamChanges_filter_push (env : GitEnv) (fb ub : String) :
    ((checkForUpstreamChanges env fb ub).2.filter isPushEvent) = [] := by
  simp only [checkForUpstreamChanges]
  repeat' split
  all_goals simp [isPushEvent]

theorem checkForUpstreamChanges_filter_rollback (env : GitEnv) (fb ub : String) :
    ((checkForUpstreamChanges env fb ub).2.filter isRollbackEvent) = [] := by
  simp only [checkForUpstreamChanges]
  repeat' split
  all_goals simp [isRollbackEvent]

theorem initFetchCheckout_trace_extends (env : GitEnv) (b : String) (tr : Trace) :
    tr <+: (initFetchCheckout env b tr).2 := by
  simp only [initFetchCheckout]
  repeat' split
  all_goals exact List.prefix_append _ _

theorem initRemotes_trace_extends (env : GitEnv) (b c : String) (tr : Trace) :
    tr <+: (initRemotes env b c tr).2 := by
  simp only [initRemotes]
  repeat' split
  all_goals first
    | exact List.prefix_append _ _
    | exact (List.prefix_append _ _).trans (List.prefix_append _ _)
    | exact ((List.prefix_append _ _).trans (List.prefix_append _ _)).trans
        (initFetchCheckout_trace_extends _ _ _)
    | exact (List.prefix_append _ _).trans (initFetchCheckout_trace_extends _ _ _)

/-- C7: for a repository pair whose initialization succeeds and whose drift
check finds no upstream commits missing from the fork branch,
`syncRepository` produces a terminal outcome with `status = "skipped"` and
`success = true`, and its collaborator trace contains no merge attempt, no
conflict-resolver invocation and no push. -/
theorem claim_C7_no_drift_skipped (env : GitEnv) (rc : RepoPairCfg)
    (account : Account) (config : AppConfig)
    (hInit : (initializeRepository env (parseRepoBranchString rc.fork).repoFullName
      (parseRepoBranchString rc.fork).branch
      (parseRepoBranchString rc.upstream).repoFullName account.token).1 = true)
    (hDrift : (checkForUpstreamChanges env (parseRepoBranchString rc.fork).branch
      (parseRepoBranchString rc.upstream).branch).1 = Except.ok false) :
    (syncRepository env rc account config).1.status = "skipped" ∧
    (syncRepository env rc account config).1.success = true ∧
    ((syncRepository env rc account config).2.filter isMergeResolvePushEvent) = [] := by
  have hIf := initializeRepository_filter_mrp env
    (parseRepoBranchString rc.fork).repoFullName (parseRepoBranchString rc.fork).branch
    (parseRepoBranchString rc.upstream).repoFullName account.token
  have hDf := checkForUpstreamChanges_filter_mrp env
    (parseRepoBranchString rc.fork).branch (parseRepoBranchString rc.upstream).branch
  rcases hI : initializeRepository env (parseRepoBranchString rc.fork).repoFullName
    (parseRepoBranchString rc.fork).branch
    (parseRepoBranchString rc.upstream).repoFullName account.token with ⟨ok1, tr1⟩
  rcases hD : checkForUpstreamChanges env (parseRepoBranchString rc.fork).branch
    (parseRepoBranchString rc.upstream).branch with ⟨r2, tr2⟩
  rw [hI] at hInit hIf
  rw [hD] at hDrift hDf
  simp only at hInit hDrift hIf hDf
  subst hInit
  subst hDrift
  simp [syncRepository, hI, hD, List.filter_append, hIf, hDf]

/-- C8: for a repository pair whose initialization succeeds, whose drift
check reports upstream commits to merge, and whose merge and push complete
without error, `syncRepository` invokes push exactly once, with arguments
`origin` and the fork branch, and produces `status = "synced"` with
`hadConflicts = false`. -/
theorem claim_C8_clean_merge_push_once (env : GitEnv) (rc : RepoPairCfg)
    (account : Account) (config : AppConfig) (fb ub hd : String)
    (hfb : (parseRepoBranchString rc.fork).branch = fb)
    (hub : (parseRepoBranchString rc.upstream).branch = ub)
    (hInit : (initializeRepository env (parseRepoBranchString rc.fork).repoFullName
      (parseRepoBranchString rc.fork).branch
      (parseRepoBranchString rc.upstream).repoFullName account.token).1 = true)
    (hDrift : (checkForUpstreamChanges env (parseRepoBranchString rc.fork).branch
      (parseRepoBranchString rc.upstream).branch).1 = Except.ok true)
    (hCheckout : env.checkout fb = Except.ok ())
    (hRevParse : env.revParse ["HEAD"] = Except.ok hd)
    (hMerge : env.merge ["upstream/" ++ ub] = Except.ok ())
    (hPush : env.push ["origin", fb] = Except.ok ()) :
    (syncRepository env rc account config).1.status = "synced" ∧
    (syncRepository env rc account config).1.success = true ∧
    (syncRepository env rc account config).1.hadConflicts = some false ∧
    ((syncRepository env rc account config).2.filter isPushEvent) =
      [GitEvent.push ["origin", fb]] := by
  subst hfb
  subst hub
  have hIf := initializeRepository_filter_push env
    (parseRepoBranchString rc.fork).repoFullName (parseRepoBranchString rc.fork).branch
    (parseRepoBranchString rc.upstream).repoFullName account.token
  have hDf := checkForUpstreamChanges_filter_push env
    (parseRepoBranchString rc.fork).branch (parseRepoBranchString rc.upstream).branch
  rcases hI : initializeRepository env (parseRepoBranchString rc.fork).repoFullName
    (parseRepoBranchString rc.fork).branch
    (parseRepoBranchString rc.upstream).repoFullName account.token with ⟨ok1, tr1⟩
  rcases hD : checkForUpstreamChanges env (parseRepoBranchString rc.fork).branch
    (parseRepoBranchString rc.upstream).branch with ⟨r2, tr2⟩
  rw [hI] at hInit hIf
  rw [hD] at hDrift hDf
  simp only at hInit hDrift hIf hDf
  subst hInit
  subst hDrift
  cases hT : config.runTestsAfterMerge with
  | false =>
    simp [syncRepository, hI, hD, mergeUpstreamChanges, hCheckout, hRevParse,
      hMerge, hPush, hT, List.filter_append, hIf, hDf, isPushEvent]
  | true =>
    cases hR : env.runTests with
    | error e =>
      simp [syncRepository, hI, hD, mergeUpstreamChanges, hCheckout, hRevParse,
        hMerge, hPush, hT, hR, List.filter_append, hIf, hDf, isPushEvent]
    | ok b =>
      cases b <;>
        simp [syncRepository, hI, hD, mergeUpstreamChanges, hCheckout, hRevParse,
          hMerge, hPush, hT, hR, List.filter_append, hIf, hDf, isPushEvent]

theorem initFetchCheckout_filter_cp (env : GitEnv) (b : String) (tr : Trace) :
    ((initFetchCheckout env b tr).2.filter isCommitOrPushEvent) =
      tr.filter isCommitOrPushEvent := by
  simp only [initFetchCheckout]
  repeat' split
  all_goals simp [List.filter_append, isCommitOrPushEvent]

theorem initRemotes_filter_cp (env : GitEnv) (b c : String) (tr : Trace) :
    ((initRemotes env b c tr).2.filter isCommitOrPushEvent) =
      tr.filter isCommitOrPushEvent := by
  simp only [initRemotes]
  repeat' split
  all_goals simp [initFetchCheckout_filter_cp, List.filter_append, isCommitOrPushEvent]

theorem initializeRepository_filter_cp (env : GitEnv) (a b c d : String) :
    ((initializeRepository env a b c d).2.filter isCommitOrPushEvent) = [] := by
  simp only [initializeRepository]
  repeat' split
  all_goals simp [initRemotes_filter_cp, List.filter_append, isCommitOrPushEvent]

theorem checkForUpstreamChanges_filter_cp (env : GitEnv) (fb ub : String) :
    ((checkForUpstreamChanges env fb ub).2.filter isCommitOrPushEvent) = [] := by
  simp only [checkForUpstreamChanges]
  repeat' split
  all_goals simp [isCommitOrPushEvent]

/-- C3: for a repository pair with drift whose merge raises a
content-conflict error, whose status query lists conflicted files, and whose
resolver, commit (of the fixed automated message) and push all succeed,
`syncRepository` performs the commit and the push with the commit strictly
before the push — its commit/push trace is exactly
`[commit, push (origin, forkBranch)]` — and the outcome has
`usedLLM = true` (the source field for the spec name `usedResolver`) and
`success = true` with `status = "synced"`. -/
theorem claim_C3_resolver_success_commit_then_push (env : GitEnv)
    (rc : RepoPairCfg) (account : Account) (config : AppConfig)
    (fb ub hd em : String) (f : String) (fs : List String)
    (hfb : (parseRepoBranchString rc.fork).branch = fb)
    (hub : (parseRepoBranchString rc.upstream).branch = ub)
    (hInit : (initializeRepository env (parseRepoBranchString rc.fork).repoFullName
      (parseRepoBranchString rc.fork).branch
      (parseRepoBranchString rc.upstream).repoFullName account.token).1 = true)
    (hDrift : (checkForUpstreamChanges env (parseRepoBranchString rc.fork).branch
      (parseRepoBranchString rc.upstream).branch).1 = Except.ok true)
    (hCheckout : env.checkout fb = Except.ok ())
    (hRevParse : env.revParse ["HEAD"] = Except.ok hd)
    (hMerge : env.merge ["upstream/" ++ ub] = Except.error em)
    (hEm : (strContains em "CONFLICT" || strContains em "failed to merge") = true)
    (hStatus : env.status = Except.ok { conflicted := f :: fs })
    (hResolve : (env.resolveConflicts (f :: fs)).success = true)
    (hCommit : env.commit ("Automated merge conflict resolution from upstream/" ++ ub) =
      Except.ok ())
    (hPush : env.push ["origin", fb] = Except.ok ()) :
    ((syncRepository env rc account config).2.filter isCommitOrPushEvent) =
      [GitEvent.commit ("Automated merge conflict resolution from upstream/" ++ ub),
       GitEvent.push ["origin", fb]] ∧
    (syncRepository env rc account config).1.usedLLM = some true ∧
    (syncRepository env rc account config).1.success = true ∧
    (syncRepository env rc account config).1.status = "synced" := by
  subst hfb
  subst hub
  have hIf := initializeRepository_filter_cp env
    (parseRepoBranchString rc.fork).repoFullName (parseRepoBranchString rc.fork).branch
    (parseRepoBranchString rc.upstream).repoFullName account.token
  have hDf := checkForUpstreamChanges_filter_cp env
    (parseRepoBranchString rc.fork).branch (parseRepoBranchString rc.upstream).branch
  rcases hI : initializeRepository env (parseRepoBranchString rc.fork).repoFullName
    (parseRepoBranchString rc.fork).branch
    (parseRepoBranchString rc.upstream).repoFullName account.token with ⟨ok1, tr1⟩
  rcases hD : checkForUpstreamChanges env (parseRepoBranchString rc.fork).branch
    (parseRepoBranchString rc.upstream).branch with ⟨r2, tr2⟩
  rw [hI] at hInit hIf
  rw [hD] at hDrift hDf
  simp only at hInit hDrift hIf hDf
  subst hInit
  subst hDrift
  cases hT : config.runTestsAfterMerge with
  | false =>
    simp [syncRepository, hI, hD, mergeUpstreamChanges, hCheckout, hRevParse,
      hMerge, hEm, hStatus, hResolve, hCommit, hPush, hT,
      List.filter_append, hIf, hDf, isCommitOrPushEvent]
  | true =>
    cases hR : env.runTests with
    | error e =>
      simp [syncRepository, hI, hD, mergeUpstreamChanges, hCheckout, hRevParse,
        hMerge, hEm, hStatus, hResolve, hCommit, hPush, hT, hR,
        List.filter_append, hIf, hDf, isCommitOrPushEvent]
    | ok b =>
      cases b <;>
        simp [syncRepository, hI, hD, mergeUpstreamChanges, hCheckout, hRevParse,
          hMerge, hEm, hStatus, hResolve, hCommit, hPush, hT, hR,
          List.filter_append, hIf, hDf, isCommitOrPushEvent]

theorem upstream_ref_ne_abort (ub : String) : "upstream/" ++ ub ≠ "--abort" := by
  intro h
  have h1 := congrArg String.length h
  rw [String.length_append] at h1
  have h2 : "upstream/".length = 9 := rfl
  have h3 : "--abort".length = 7 := rfl
  rw [h2, h3] at h1
  omega

theorem isRollbackEvent_upstream_merge (ub : String) :
    isRollbackEvent (GitEvent.merge ["upstream/" ++ ub]) = false := by
  simp [isRollbackEvent, upstream_ref_ne_abort ub]

/-- C5: for a repository pair whose merge raises a content-conflict error,
whose status query lists conflicted files, and whose resolver reports
failure with error text `etxt`, `syncRepository` produces an outcome with
`success = false`, `status = "error"`, `hadConflicts = true`,
`usedLLM = true` (source field for the spec name `usedResolver`), and an
`error` string that contains `etxt` as a substring. -/
theorem claim_C5_resolver_failure_outcome (env : GitEnv)
    (rc : RepoPairCfg) (account : Account) (config : AppConfig)
    (fb ub hd em etxt : String) (f : String) (fs : List String)
    (hfb : (parseRepoBranchString rc.fork).branch = fb)
    (hub : (parseRepoBranchString rc.upstream).branch = ub)
    (hInit : (initializeRepository env (parseRepoBranchString rc.fork).repoFullName
      (parseRepoBranchString rc.fork).branch
      (parseRepoBranchString rc.upstream).repoFullName account.token).1 = true)
    (hDrift : (checkForUpstreamChanges env (parseRepoBranchString rc.fork).branch
      (parseRepoBranchString rc.upstream).branch).1 = Except.ok true)
    (hCheckout : env.checkout fb = Except.ok ())
    (hRevParse : env.revParse ["HEAD"] = Except.ok hd)
    (hMerge : env.merge ["upstream/" ++ ub] = Except.error em)
    (hEm : (strContains em "CONFLICT" || strContains em "failed to merge") = true)
    (hStatus : env.status = Except.ok { conflicted := f :: fs })
    (hResolve : env.resolveConflicts (f :: fs) =
      { success := false, error := some etxt }) :
    (syncRepository env rc account config).1.success = false ∧
    (syncRepository env rc account config).1.status = "error" ∧
    (syncRepository env rc account config).1.hadConflicts = some true ∧
    (syncRepository env rc account config).1.usedLLM = some true ∧
    strContains ((syncRepository env rc account config).1.error.getD "") etxt = true := by
  subst hfb
  subst hub
  rcases hI : initializeRepository env (parseRepoBranchString rc.fork).repoFullName
    (parseRepoBranchString rc.fork).branch
    (parseRepoBranchString rc.upstream).repoFullName account.token with ⟨ok1, tr1⟩
  rcases hD : checkForUpstreamChanges env (parseRepoBranchString rc.fork).branch
    (parseRepoBranchString rc.upstream).branch with ⟨r2, tr2⟩
  rw [hI] at hInit
  rw [hD] at hDrift
  simp only at hInit hDrift
  subst hInit
  subst hDrift
  simp [syncRepository, hI, hD, mergeUpstreamChanges, hCheckout, hRevParse,
    hMerge, hEm, hStatus, hResolve, strContains_append_right]

/-- C1 (amended): for a repository pair whose merge raises a content
conflict and whose resolver reports failure, the engine attempts
`merge --abort` before any reset; when the abort succeeds no reset is
attempted, and when the abort fails a hard reset to the commit hash recorded
immediately before the merge is attempted.  However, a failure of that reset
is only logged: the returned outcome does not depend on the reset result at
all, so a rollback failure is not surfaced as a distinct error. -/
theorem claim_C1_rollback_order (env : GitEnv)
    (rc : RepoPairCfg) (account : Account) (config : AppConfig)
    (fb ub hd em etxt : String) (f : String) (fs : List String)
    (hfb : (parseRepoBranchString rc.fork).branch = fb)
    (hub : (parseRepoBranchString rc.upstream).branch = ub)
    (hInit : (initializeRepository env (parseRepoBranchString rc.fork).repoFullName
      (parseRepoBranchString rc.fork).branch
      (parseRepoBranchString rc.upstream).repoFullName account.token).1 = true)
    (hDrift : (checkForUpstreamChanges env (parseRepoBranchString rc.fork).branch
      (parseRepoBranchString rc.upstream).branch).1 = Except.ok true)
    (hCheckout : env.checkout fb = Except.ok ())
    (hRevParse : env.revParse ["HEAD"] = Except.ok hd)
    (hMerge : env.merge ["upstream/" ++ ub] = Except.error em)
    (hEm : (strContains em "CONFLICT" || strContains em "failed to merge") = true)
    (hStatus : env.status = Except.ok { conflicted := f :: fs })
    (hResolve : env.resolveConflicts (f :: fs) =
      { success := false, error := some etxt }) :
    (env.merge ["--abort"] = Except.ok () →
      ((syncRepository env rc account config).2.filter isRollbackEvent) =
        [GitEvent.merge ["--abort"]]) ∧
    (∀ ae, env.merge ["--abort"] = Except.error ae →
      ((syncRepository env rc account config).2.filter isRollbackEvent) =
        [GitEvent.merge ["--abort"], GitEvent.reset ["--hard", hd]]) ∧
    (∀ r' : List String → Except String Unit,
      (syncRepository { env with reset := r' } rc account config).1 =
        (syncRepository env rc account config).1) := by
  subst hfb
  subst hub
  have hIf := initializeRepository_filter_rollback env
    (parseRepoBranchString rc.fork).repoFullName (parseRepoBranchString rc.fork).branch
    (parseRepoBranchString rc.upstream).repoFullName account.token
  have hDf := checkForUpstreamChanges_filter_rollback env
    (parseRepoBranchString rc.fork).branch (parseRepoBranchString rc.upstream).branch
  rcases hI : initializeRepository env (parseRepoBranchString rc.fork).repoFullName
    (parseRepoBranchString rc.fork).branch
    (parseRepoBranchString rc.upstream).repoFullName account.token with ⟨ok1, tr1⟩
  rcases hD : checkForUpstreamChanges env (parseRepoBranchString rc.fork).branch
    (parseRepoBranchString rc.upstream).branch with ⟨r2, tr2⟩
  rw [hI] at hInit hIf
  rw [hD] at hDrift hDf
  simp only at hInit hDrift hIf hDf
  subst hInit
  subst hDrift
  refine ⟨?_, ?_, ?_⟩
  · intro hAbort
    simp [syncRepository, hI, hD, mergeUpstreamChanges, hCheckout, hRevParse,
      hMerge, hEm, hStatus, hResolve, hAbort, List.filter_append, hIf, hDf,
      isRollbackEvent, upstream_ref_ne_abort]
  · intro ae hAbort
    simp [syncRepository, hI, hD, mergeUpstreamChanges, hCheckout, hRevParse,
      hMerge, hEm, hStatus, hResolve, hAbort, List.filter_append, hIf, hDf,
      isRollbackEvent, upstream_ref_ne_abort]
  · intro r'
    rfl

/-- C1 (counterexample): a concrete run in which the merge conflicts, the
resolver fails, the abort fails and the hard reset also fails, yet the
produced outcome is identical to the run where the reset succeeds; the
outcome error text is exactly the resolver-failure message and does not
mention the reset failure.  This refutes the final clause of C1: a rollback
failure is silently swallowed rather than surfaced as a distinct error. -/
theorem claim_C1_cex :
    (syncRepository wGitEnvResetFail wRc wAccount wConfig).1 =
      (syncRepository wGitEnvResetOk wRc wAccount wConfig).1 ∧
    wGitEnvResetFail.reset ["--hard", "mock-HEAD"] = Except.error "reset failed" ∧
    wGitEnvResetOk.reset ["--hard", "mock-HEAD"] = Except.ok () ∧
    ((syncRepository wGitEnvResetFail wRc wAccount wConfig).2.filter isRollbackEvent) =
      [GitEvent.merge ["--abort"], GitEvent.reset ["--hard", "mock-HEAD"]] ∧
    strContains ((syncRepository wGitEnvResetFail wRc wAccount wConfig).1.error.getD "")
      "reset failed" = false ∧
    (syncRepository wGitEnvResetFail wRc wAccount wConfig).1.error =
      some "Failed to resolve conflicts for dev from upstream/main: LLM dun goofed" := by
  refine ⟨rfl, rfl, rfl, ?_, ?_, rfl⟩
  · decide
  · decide

/-- C4: for a repository pair whose merge reports a conflict while the
subsequent status query returns an empty conflicted-file list, the engine
aborts the merge (`merge --abort` appears in the trace) and fails with an
error equal to `"Failed to identify conflicted files for resolution."`
(which contains the claimed message as a substring), and the conflict
resolver is never invoked — in particular no file paths guessed from the
error-message text are handed to it.  (The source does regular-expression
match the error text in this branch, but the result feeds only a log line
and never the resolution.) -/
theorem claim_C4_empty_conflict_list_aborts (env : GitEnv)
    (rc : RepoPairCfg) (account : Account) (config : AppConfig)
    (fb ub hd em : String)
    (hfb : (parseRepoBranchString rc.fork).branch = fb)
    (hub : (parseRepoBranchString rc.upstream).branch = ub)
    (hInit : (initializeRepository env (parseRepoBranchString rc.fork).repoFullName
      (parseRepoBranchString rc.fork).branch
      (parseRepoBranchString rc.upstream).repoFullName account.token).1 = true)
    (hDrift : (checkForUpstreamChanges env (parseRepoBranchString rc.fork).branch
      (parseRepoBranchString rc.upstream).branch).1 = Except.ok true)
    (hCheckout : env.checkout fb = Except.ok ())
    (hRevParse : env.revParse ["HEAD"] = Except.ok hd)
    (hMerge : env.merge ["upstream/" ++ ub] = Except.error em)
    (hEm : (strContains em "CONFLICT" || strContains em "failed to merge") = true)
    (hStatus : env.status = Except.ok { conflicted := [] })
    (hAbort : env.merge ["--abort"] = Except.ok ()) :
    (syncRepository env rc account config).1.success = false ∧
    (syncRepository env rc account config).1.status = "error" ∧
    (syncRepository env rc account config).1.error =
      some "Failed to identify conflicted files for resolution." ∧
    strContains ((syncRepository env rc account config).1.error.getD "")
      "Failed to identify conflicted files for resolution" = true ∧
    GitEvent.merge ["--abort"] ∈ (syncRepository env rc account config).2 ∧
    (∀ fileList : List String,
      GitEvent.resolve fileList ∉ (syncRepository env rc account config).2) := by
  subst hfb
  subst hub
  have hIf := initializeRepository_filter_mrp env
    (parseRepoBranchString rc.fork).repoFullName (parseRepoBranchString rc.fork).branch
    (parseRepoBranchString rc.upstream).repoFullName account.token
  have hDf := checkForUpstreamChanges_filter_mrp env
    (parseRepoBranchString rc.fork).branch (parseRepoBranchString rc.upstream).branch
  rcases hI : initializeRepository env (parseRepoBranchString rc.fork).repoFullName
    (parseRepoBranchString rc.fork).branch
    (parseRepoBranchString rc.upstream).repoFullName account.token with ⟨ok1, tr1⟩
  rcases hD : checkForUpstreamChanges env (parseRepoBranchString rc.fork).branch
    (parseRepoBranchString rc.upstream).branch with ⟨r2, tr2⟩
  rw [hI] at hInit hIf
  rw [hD] at hDrift hDf
  simp only at hInit hDrift hIf hDf
  subst hInit
  subst hDrift
  have hResMem1 : ∀ fileList : List String, GitEvent.resolve fileList ∉ tr1 := by
    intro fileList hmem
    have := (List.filter_eq_nil_iff.mp hIf) _ hmem
    simp [isMergeResolvePushEvent] at this
  have hResMem2 : ∀ fileList : List String, GitEvent.resolve fileList ∉ tr2 := by
    intro fileList hmem
    have := (List.filter_eq_nil_iff.mp hDf) _ hmem
    simp [isMergeResolvePushEvent] at this
  refine ⟨?_, ?_, ?_, ?_, ?_, ?_⟩
  · simp [syncRepository, hI, hD, mergeUpstreamChanges, hCheckout, hRevParse,
      hMerge, hEm, hStatus, hAbort]
  · simp [syncRepository, hI, hD, mergeUpstreamChanges, hCheckout, hRevParse,
      hMerge, hEm, hStatus, hAbort]
  · simp [syncRepository, hI, hD, mergeUpstreamChanges, hCheckout, hRevParse,
      hMerge, hEm, hStatus, hAbort]
  · have hev : strContains "Failed to identify conflicted files for resolution."
        "Failed to identify conflicted files for resolution" = true := by decide
    simp [syncRepository, hI, hD, mergeUpstreamChanges, hCheckout, hRevParse,
      hMerge, hEm, hStatus, hAbort, hev]
  · simp [syncRepository, hI, hD, mergeUpstreamChanges, hCheckout, hRevParse,
      hMerge, hEm, hStatus, hAbort]
  · intro fileList
    simp [syncRepository, hI, hD, mergeUpstreamChanges, hCheckout, hRevParse,
      hMerge, hEm, hStatus, hAbort, hResMem1 fileList, hResMem2 fileList]

/-- C9: during initialization, when the working copy already exists the
engine refreshes the fork (origin) remote URL and never clones; when an
`upstream` remote exists whose URL differs from the expected upstream URL,
the engine updates it; and cloning is attempted exactly when the working
copy is absent. -/
theorem claim_C9_initialize_remote_refresh :
    (∀ (env : GitEnv) (fr fb ur tok : String),
      env.checkIsRepo = Except.ok true →
      (∀ u, GitEvent.clone u ∉ (initializeRepository env fr fb ur tok).2) ∧
      GitEvent.updateRemoteUrl "origin"
          ("https://" ++ tok ++ "@github.com/" ++ fr ++ ".git") ∈
        (initializeRepository env fr fb ur tok).2) ∧
    (∀ (env : GitEnv) (fr fb ur tok : String) (remotes : List Remote) (r : Remote),
      env.checkIsRepo = Except.ok true →
      env.updateRemoteUrl "origin"
        ("https://" ++ tok ++ "@github.com/" ++ fr ++ ".git") = Except.ok () →
      env.getRemotes = Except.ok remotes →
      remotes.find? (fun rr => rr.name == "upstream") = some r →
      r.url ≠ "https://github.com/" ++ ur ++ ".git" →
      GitEvent.updateRemoteUrl "upstream" ("https://github.com/" ++ ur ++ ".git") ∈
        (initializeRepository env fr fb ur tok).2) ∧
    (∀ (env : GitEnv) (fr fb ur tok : String),
      env.checkIsRepo = Except.ok false →
      GitEvent.clone ("https://" ++ tok ++ "@github.com/" ++ fr ++ ".git") ∈
        (initializeRepository env fr fb ur tok).2) := by
  refine ⟨?_, ?_, ?_⟩
  · intro env fr fb ur tok h
    simp only [initializeRepository, h, if_true]
    cases hU : env.updateRemoteUrl "origin" ("https://" ++ tok ++ "@github.com/" ++ fr ++ ".git") with
    | error e => exact ⟨fun u => by simp, by simp⟩
    | ok u0 =>
      constructor
      · intro u hmem
        have hfil := initRemotes_filter_clone env fb ur
          [GitEvent.checkIsRepo, GitEvent.updateRemoteUrl "origin"
            ("https://" ++ tok ++ "@github.com/" ++ fr ++ ".git")]
        have hbase : ([GitEvent.checkIsRepo, GitEvent.updateRemoteUrl "origin"
            ("https://" ++ tok ++ "@github.com/" ++ fr ++ ".git")].filter isCloneEvent) = [] := by
          simp [isCloneEvent]
        rw [hbase] at hfil
        have := List.filter_eq_nil_iff.mp hfil _ hmem
        simp [isCloneEvent] at this
      · exact (initRemotes_trace_extends env fb ur _).subset (by simp)
  · intro env fr fb ur tok remotes r h hU hG hF hNe
    simp only [initializeRepository, h, if_true, hU, initRemotes, hG, hF]
    rw [if_pos hNe]
    cases hU2 : env.updateRemoteUrl "upstream" ("https://github.com/" ++ ur ++ ".git") with
    | error e => simp
    | ok u0 => exact (initFetchCheckout_trace_extends env fb _).subset (by simp)
  · intro env fr fb ur tok h
    simp only [initializeRepository, h, if_false]
    cases hC : env.clone ("https://" ++ tok ++ "@github.com/" ++ fr ++ ".git") with
    | error e => simp
    | ok u0 => exact (initRemotes_trace_extends env fb ur _).subset (by simp)

theorem processRepo_details (runPair : RepoPairCfg → Except String SyncOutcome)
    (an : String) (acc : BatchResults) (rc : RepoPairCfg) :
    (processRepo runPair an acc rc).details =
      acc.details ++ [outcomeOfPair runPair an rc] := by
  cases hP : runPair rc with
  | ok o =>
    simp only [processRepo, hP, outcomeOfPair]
    repeat' split
    all_goals simp
  | error m => simp [processRepo, hP, outcomeOfPair]

theorem processRepo_failed (runPair : RepoPairCfg → Except String SyncOutcome)
    (an : String) (acc : BatchResults) (rc : RepoPairCfg) :
    (processRepo runPair an acc rc).failedRepos =
      acc.failedRepos +
        (if (outcomeOfPair runPair an rc).success then 0 else 1) := by
  cases hP : runPair rc with
  | ok o =>
    simp only [processRepo, hP, outcomeOfPair]
    repeat' split
    all_goals simp_all
  | error m => simp [processRepo, hP, outcomeOfPair]

theorem processRepo_success (runPair : RepoPairCfg → Except String SyncOutcome)
    (an : String) (acc : BatchResults) (rc : RepoPairCfg) :
    (processRepo runPair an acc rc).success =
      (acc.success && (outcomeOfPair runPair an rc).success) := by
  cases hP : runPair rc with
  | ok o =>
    simp only [processRepo, hP, outcomeOfPair]
    repeat' split
    all_goals simp_all
  | error m => simp [processRepo, hP, outcomeOfPair]

theorem foldl_processRepo_details (runPair : RepoPairCfg → Except String SyncOutcome)
    (an : String) (repos : List RepoPairCfg) (acc : BatchResults) :
    (repos.foldl (processRepo runPair an) acc).details =
      acc.details ++ repos.map (outcomeOfPair runPair an) := by
  induction repos generalizing acc with
  | nil => simp
  | cons rc rest ih =>
    rw [List.foldl_cons, ih, processRepo_details]
    simp

theorem foldl_processRepo_failed (runPair : RepoPairCfg → Except String SyncOutcome)
    (an : String) (repos : List RepoPairCfg) (acc : BatchResults) :
    (repos.foldl (processRepo runPair an) acc).failedRepos =
      acc.failedRepos +
        ((repos.map (outcomeOfPair runPair an)).filter
          (fun o => o.success = false)).length := by
  induction repos generalizing acc with
  | nil => simp
  | cons rc rest ih =>
    rw [List.foldl_cons, ih, processRepo_failed]
    cases hS : (outcomeOfPair runPair an rc).success <;> (simp [hS]; try omega)

theorem foldl_processRepo_success (runPair : RepoPairCfg → Except String SyncOutcome)
    (an : String) (repos : List RepoPairCfg) (acc : BatchResults) :
    (repos.foldl (processRepo runPair an) acc).success =
      (acc.success && (repos.map (outcomeOfPair runPair an)).all
        (fun o => o.success)) := by
  induction repos generalizing acc with
  | nil => simp
  | cons rc rest ih =>
    rw [List.foldl_cons, ih, processRepo_success]
    cases hS : (outcomeOfPair runPair an rc).success <;> simp [hS]

/-- C2: the orchestrator processes every configured pair exactly once, in
order — a pair whose run throws contributes an `error`-status outcome
carrying the thrown message and does not prevent later pairs from being
processed — and after the batch `failedRepos` equals the number of
non-success outcomes while the overall `success` flag is true exactly when
every outcome succeeded. -/
theorem claim_C2_batch_isolation (runPair : RepoPairCfg → Except String SyncOutcome)
    (account : Account) :
    ∃ res, startSync runPair account {} = SyncRunResult.completed res ∧
      res.details = account.repos.map (outcomeOfPair runPair account.name) ∧
      res.failedRepos =
        (res.details.filter (fun o => o.success = false)).length ∧
      res.success = res.details.all (fun o => o.success) ∧
      (∀ rc msg, runPair rc = Except.error msg →
        outcomeOfPair runPair account.name rc =
          { repository := repoIdentifier rc, account := account.name
            success := false, status := "error", error := some msg }) := by
  refine ⟨account.repos.foldl (processRepo runPair account.name)
    { success := true, syncedRepos := 0, failedRepos := 0,
      skippedRepos := 0, details := [] }, ?_, ?_, ?_, ?_, ?_⟩
  · simp [startSync]
  · simpa using foldl_processRepo_details runPair account.name account.repos _
  · rw [foldl_processRepo_details, foldl_processRepo_failed]
    simp
  · rw [foldl_processRepo_details, foldl_processRepo_success]
    simp
  · intro rc msg h
    simp [outcomeOfPair, h]

theorem matchColonTail_iff (l : List Char) :
    matchColonTail l = true ↔ ∃ z : List Char, l = ':' :: z ∧ z ≠ [] ∧ ':' ∉ z := by
  cases l with
  | nil => simp [matchColonTail]
  | cons d z =>
    simp only [matchColonTail, Bool.and_eq_true, decide_eq_true_eq,
      Bool.not_eq_true', List.all_eq_true]
    constructor
    · rintro ⟨⟨hd, hz⟩, hall⟩
      subst hd
      refine ⟨z, rfl, ?_, ?_⟩
      · intro h
        subst h
        simp at hz
      · intro hmem
        exact hall ':' hmem rfl
    · rintro ⟨z2, hz2, hne, hnc⟩
      injection hz2 with h1 h2
      subst h1
      subst h2
      refine ⟨⟨rfl, ?_⟩, ?_⟩
      · cases z with
        | nil => exact absurd rfl hne
        | cons a b => rfl
      · intro e hmem he
        exact hnc (he ▸ hmem)

theorem matchYZ_iff (l : List Char) :
    matchYZ l = true ↔
      ∃ y z : List Char, l = y ++ ':' :: z ∧ y ≠ [] ∧ '/' ∉ y ∧ z ≠ [] ∧ ':' ∉ z := by
  induction l with
  | nil =>
    simp only [matchYZ, Bool.false_eq_true, false_iff]
    rintro ⟨y, z, h, hy, -, -, -⟩
    cases y with
    | nil => simp at h
    | cons a b => simp at h
  | cons c rest ih =>
    simp only [matchYZ, Bool.and_eq_true, decide_eq_true_eq, Bool.or_eq_true]
    constructor
    · rintro ⟨hc, hA | hB⟩
      · obtain ⟨z, hz, hzne, hznc⟩ := (matchColonTail_iff rest).mp hA
        exact ⟨[c], z, by rw [hz]; rfl, by simp,
          fun h => hc (List.mem_singleton.mp h).symm, hzne, hznc⟩
      · obtain ⟨y, z, hl, hy, hys, hz, hzs⟩ := ih.mp hB
        refine ⟨c :: y, z, by rw [List.cons_append, hl], by simp, ?_, hz, hzs⟩
        intro hmem
        rcases List.mem_cons.mp hmem with h1 | h1
        · exact hc h1.symm
        · exact hys h1
    · rintro ⟨y, z, hl, hy, hys, hz, hzs⟩
      cases y with
      | nil => exact absurd rfl hy
      | cons c0 y0 =>
        rw [List.cons_append] at hl
        injection hl with h1 h2
        subst h1
        refine ⟨?_, ?_⟩
        · intro hcc
          exact hys (List.mem_cons.mpr (Or.inl hcc.symm))
        · cases y0 with
          | nil =>
            left
            apply (matchColonTail_iff rest).mpr
            exact ⟨z, by simpa using h2, hz, hzs⟩
          | cons c1 y1 =>
            right
            apply ih.mpr
            refine ⟨c1 :: y1, z, by simpa using h2, by simp, ?_, hz, hzs⟩
            intro hmem
            exact hys (List.mem_cons_of_mem _ hmem)

theorem matchAfterOwner_iff (l : List Char) :
    matchAfterOwner l = true ↔
      ∃ x r : List Char, l = x ++ '/' :: r ∧ '/' ∉ x ∧ matchYZ r = true := by
  induction l with
  | nil =>
    simp only [matchAfterOwner, Bool.false_eq_true, false_iff]
    rintro ⟨x, r, h, -, -⟩
    cases x with
    | nil => simp at h
    | cons a b => simp at h
  | cons c rest ih =>
    by_cases hc : c = '/'
    · subst hc
      simp only [matchAfterOwner, if_pos rfl]
      constructor
      · intro h
        exact ⟨[], rest, rfl, by simp, h⟩
      · rintro ⟨x, r, hl, hxs, hr⟩
        cases x with
        | nil =>
          simp only [List.nil_append, List.cons.injEq] at hl
          rwa [hl.2]
        | cons c0 x0 =>
          rw [List.cons_append] at hl
          injection hl with h1 h2
          exact absurd (List.mem_cons.mpr (Or.inl h1)) hxs
    · simp only [matchAfterOwner, if_neg hc]
      rw [ih]
      constructor
      · rintro ⟨x, r, hl, hxs, hr⟩
        refine ⟨c :: x, r, by rw [List.cons_append, hl], ?_, hr⟩
        intro hmem
        rcases List.mem_cons.mp hmem with h1 | h1
        · exact hc h1.symm
        · exact hxs h1
      · rintro ⟨x, r, hl, hxs, hr⟩
        cases x with
        | nil =>
          simp only [List.nil_append, List.cons.injEq] at hl
          exact absurd hl.1 hc
        | cons c0 x0 =>
          rw [List.cons_append] at hl
          injection hl with h1 h2
          subst h1
          refine ⟨x0, r, h2, ?_, hr⟩
          intro hmem
          exact hxs (List.mem_cons_of_mem _ hmem)

theorem repoBranchRegexTest_iff (s : String) :
    repoBranchRegexTest s = true ↔ SpecRepoIdFormat s := by
  unfold repoBranchRegexTest SpecRepoIdFormat
  cases hs : s.data with
  | nil =>
    simp only [Bool.false_eq_true, false_iff]
    rintro ⟨x, y, z, h, hx, -, -, -, -, -⟩
    cases x with
    | nil => simp at h
    | cons a b => simp at h
  | cons c rest =>
    have hred : (match (c :: rest : List Char) with
        | [] => false
        | c0 :: rest0 => if c0 = '/' then false else matchAfterOwner rest0) =
        (if c = '/' then false else matchAfterOwner rest) := rfl
    rw [hred]
    by_cases hc : c = '/'
    · subst hc
      rw [if_pos rfl]
      simp only [Bool.false_eq_true, false_iff]
      rintro ⟨x, y, z, h, hx, hxs, -, -, -, -⟩
      cases x with
      | nil => exact absurd rfl hx
      | cons c0 x0 =>
        rw [List.cons_append] at h
        injection h with h1 h2
        exact hxs (List.mem_cons.mpr (Or.inl h1))
    · rw [if_neg hc, matchAfterOwner_iff]
      constructor
      · rintro ⟨x0, r, hrest, hx0s, hr⟩
        obtain ⟨y, z, hrz, hy, hys, hz, hzs⟩ := (matchYZ_iff r).mp hr
        refine ⟨c :: x0, y, z, by rw [List.cons_append, hrest, hrz], by simp, ?_,
          hy, hys, hz, hzs⟩
        intro hmem
        rcases List.mem_cons.mp hmem with h1 | h1
        · exact hc h1.symm
        · exact hx0s h1
      · rintro ⟨x, y, z, h, hx, hxs, hy, hys, hz, hzs⟩
        cases x with
        | nil => exact absurd rfl hx
        | cons c0 x0 =>
          rw [List.cons_append] at h
          injection h with h1 h2
          subst h1
          refine ⟨x0, y ++ ':' :: z, h2, ?_, (matchYZ_iff _).mpr ⟨y, z, rfl, hy, hys, hz, hzs⟩⟩
          intro hmem
          exact hxs (List.mem_cons_of_mem _ hmem)

theorem repoBranchRegexTest_empty : repoBranchRegexTest "" = false := rfl

/-- C6 (amended): configuration validation accepts a repository-pair entry
exactly when both identifiers match the source regex, whose language is:
a non-empty slash-free owner segment, one `/`, a non-empty slash-free
middle segment (which may itself contain further colons), the last `:` of
the identifier, and a non-empty colon-free branch segment (which may itself
contain further slashes).  In particular exactly one `/` occurs before the
last colon, but "exactly one colon overall" and "exactly one slash
anywhere" are not enforced. -/
theorem claim_C6_accepts_iff (rc : RepoPairCfg) :
    validateRepoEntry rc = Except.ok () ↔
      (SpecRepoIdFormat rc.upstream ∧ SpecRepoIdFormat rc.fork) := by
  rw [← repoBranchRegexTest_iff, ← repoBranchRegexTest_iff]
  simp only [validateRepoEntry]
  split_ifs with h1 h2 h3 h4
  · simp [h1, repoBranchRegexTest_empty]
  · simp [h2, repoBranchRegexTest_empty]
  · rw [Bool.not_eq_true'] at h3
    simp [h3]
  · rw [Bool.not_eq_true'] at h4
    simp [h4]
  · rw [Bool.not_eq_true'] at h3 h4
    simp only [Bool.not_eq_false] at h3 h4
    simp [h3, h4]

/-- C6 (counterexample): the identifier `"a/b:c:d"` contains two colons yet
is accepted by the validation regex (and a full pair entry built from it
passes the per-entry check of `validateConfig`); likewise `"a/b:c/d"` with a
slash after the colon is accepted.  This refutes the claim that every
accepted identifier has exactly one colon overall and exactly one slash. -/
theorem claim_C6_cex :
    validateRepoEntry { upstream := "a/b:c:d", fork := "a/b:c" } = Except.ok () ∧
    repoBranchRegexTest "a/b:c:d" = true ∧
    List.count ':' "a/b:c:d".data = 2 ∧
    repoBranchRegexTest "a/b:c/d" = true ∧
    List.count '/' "a/b:c/d".data = 2 := by
  refine ⟨rfl, rfl, ?_, rfl, ?_⟩ <;> decide

/-- C6 witness: a well-formed identifier pair is accepted, and the
characterization applies to it. -/
theorem claim_C6_witness :
    validateRepoEntry { upstream := "up/repo:main", fork := "user/fork:dev" } =
      Except.ok () ∧
    SpecRepoIdFormat "up/repo:main" := by
  constructor
  · rfl
  · exact ((claim_C6_accepts_iff
      { upstream := "up/repo:main", fork := "user/fork:dev" }).mp rfl).1

/-- C10 (amended): invoked with an empty list of conflicted file paths, the
conflict resolver performs no collaborator action at all — in particular it
sends no text-generation request and creates no commit — and it returns
`success = true` exactly when LLM-client initialization succeeds (an
invalid or unsupported LLM configuration still yields `success = false`,
because `initializeLLMClient` runs before the empty-list check). -/
theorem claim_C10_empty_list (env : ResolverEnv) (cfg : LLMConfig) :
    (resolveConflicts env [] cfg).2 = [] ∧
    ((resolveConflicts env [] cfg).1.success = true ↔
      initializeLLMClient cfg = Except.ok ()) := by
  cases h : initializeLLMClient cfg with
  | error e => simp [resolveConflicts, h, resolveLoop]
  | ok u => simp [resolveConflicts, h, resolveLoop]

/-- C10 (counterexample): with an unsupported provider in the LLM
configuration, the resolver invoked on an empty conflict list returns
`success = false` (the initialization failure), refuting the claim that an
empty list always yields `success = true`; no request and no commit happen
either way. -/
theorem claim_C10_cex :
    (resolveConflicts wResolverEnv [] wLLMConfigBad).1.success = false ∧
    (resolveConflicts wResolverEnv [] wLLMConfigBad).1.error =
      some "LLM client initialization failed: Unsupported LLM provider: anthropic. Currently, only openai is supported." ∧
    (resolveConflicts wResolverEnv [] wLLMConfigBad).2 = [] := by
  refine ⟨rfl, rfl, rfl⟩

/-- C10 witness: with a valid LLM configuration the resolver on an empty
list returns success, with no recorded text-generation request or commit. -/
theorem claim_C10_witness :
    (resolveConflicts wResolverEnv [] wLLMConfigGood).1.success = true ∧
    (resolveConflicts wResolverEnv [] wLLMConfigGood).2 = [] := by
  obtain ⟨h2, hiff⟩ := claim_C10_empty_list wResolverEnv wLLMConfigGood
  exact ⟨hiff.mpr rfl, h2⟩

/-- C7 witness: concrete no-drift environment reaches the skipped outcome. -/
theorem claim_C7_witness :
    (syncRepository wGitEnvNoDrift wRc wAccount wConfig).1.status = "skipped" ∧
    (syncRepository wGitEnvNoDrift wRc wAccount wConfig).1.success = true ∧
    ((syncRepository wGitEnvNoDrift wRc wAccount wConfig).2.filter
      isMergeResolvePushEvent) = [] :=
  claim_C7_no_drift_skipped wGitEnvNoDrift wRc wAccount wConfig rfl rfl

/-- C8 witness: concrete clean-merge environment pushes exactly once. -/
theorem claim_C8_witness :
    (syncRepository wGitEnvBase wRc wAccount wConfig).1.status = "synced" ∧
    (syncRepository wGitEnvBase wRc wAccount wConfig).1.success = true ∧
    (syncRepository wGitEnvBase wRc wAccount wConfig).1.hadConflicts = some false ∧
    ((syncRepository wGitEnvBase wRc wAccount wConfig).2.filter isPushEvent) =
      [GitEvent.push ["origin", "dev"]] :=
  claim_C8_clean_merge_push_once wGitEnvBase wRc wAccount wConfig
    "dev" "main" "mock-HEAD" rfl rfl rfl rfl rfl rfl rfl rfl

/-- C3 witness: concrete conflicted merge with a successful resolver commits
then pushes. -/
theorem claim_C3_witness :
    ((syncRepository wGitEnvConflictOk wRc wAccount wConfig).2.filter
      isCommitOrPushEvent) =
      [GitEvent.commit "Automated merge conflict resolution from upstream/main",
       GitEvent.push ["origin", "dev"]] ∧
    (syncRepository wGitEnvConflictOk wRc wAccount wConfig).1.usedLLM = some true ∧
    (syncRepository wGitEnvConflictOk wRc wAccount wConfig).1.success = true ∧
    (syncRepository wGitEnvConflictOk wRc wAccount wConfig).1.status = "synced" :=
  claim_C3_resolver_success_commit_then_push wGitEnvConflictOk wRc wAccount wConfig
    "dev" "main" "mock-HEAD" "Merge failed with CONFLICTS" "file1.js" []
    rfl rfl rfl rfl rfl rfl rfl (by decide) rfl rfl rfl rfl

/-- C5 witness: concrete conflicted merge with a failing resolver yields the
error outcome containing the resolver text. -/
theorem claim_C5_witness :
    (syncRepository wGitEnvResolverFail wRc wAccount wConfig).1.success = false ∧
    (syncRepository wGitEnvResolverFail wRc wAccount wConfig).1.status = "error" ∧
    (syncRepository wGitEnvResolverFail wRc wAccount wConfig).1.hadConflicts = some true ∧
    (syncRepository wGitEnvResolverFail wRc wAccount wConfig).1.usedLLM = some true ∧
    strContains ((syncRepository wGitEnvResolverFail wRc wAccount wConfig).1.error.getD "")
      "LLM dun goofed" = true :=
  claim_C5_resolver_failure_outcome wGitEnvResolverFail wRc wAccount wConfig
    "dev" "main" "mock-HEAD" "Merge failed with CONFLICTS" "LLM dun goofed" "file1.js" []
    rfl rfl rfl rfl rfl rfl rfl (by decide) rfl rfl

/-- C1 witness: in the concrete resolver-failure environment whose abort
succeeds, the rollback trace is exactly the abort. -/
theorem claim_C1_witness :
    ((syncRepository wGitEnvResolverFail wRc wAccount wConfig).2.filter
      isRollbackEvent) = [GitEvent.merge ["--abort"]] := by
  have h := claim_C1_rollback_order wGitEnvResolverFail wRc wAccount wConfig
    "dev" "main" "mock-HEAD" "Merge failed with CONFLICTS" "LLM dun goofed" "file1.js" []
    rfl rfl rfl rfl rfl rfl rfl (by decide) rfl rfl
  exact h.1 rfl

/-- C4 witness: concrete conflict with an empty conflicted-file list aborts
and fails with the fixed message. -/
theorem claim_C4_witness :
    (syncRepository wGitEnvEmptyConflict wRc wAccount wConfig).1.success = false ∧
    (syncRepository wGitEnvEmptyConflict wRc wAccount wConfig).1.status = "error" ∧
    (syncRepository wGitEnvEmptyConflict wRc wAccount wConfig).1.error =
      some "Failed to identify conflicted files for resolution." ∧
    strContains ((syncRepository wGitEnvEmptyConflict wRc wAccount wConfig).1.error.getD "")
      "Failed to identify conflicted files for resolution" = true ∧
    GitEvent.merge ["--abort"] ∈ (syncRepository wGitEnvEmptyConflict wRc wAccount wConfig).2 ∧
    (∀ fileList : List String,
      GitEvent.resolve fileList ∉ (syncRepository wGitEnvEmptyConflict wRc wAccount wConfig).2) :=
  claim_C4_empty_conflict_list_aborts wGitEnvEmptyConflict wRc wAccount wConfig
    "dev" "main" "mock-HEAD" "Merge failed with CONFLICTS"
    rfl rfl rfl rfl rfl rfl rfl (by decide) rfl rfl

/-- C9 witness: in a concrete environment with an existing working copy and
a stale upstream URL, both remote refreshes appear in the trace and no clone
occurs; a concrete absent-copy environment clones. -/
theorem claim_C9_witness :
    GitEvent.updateRemoteUrl "origin" "https://user-token@github.com/user/fork.git" ∈
      (initializeRepository wGitEnvStaleUpstream "user/fork" "dev" "up/repo" "user-token").2 ∧
    GitEvent.updateRemoteUrl "upstream" "https://github.com/up/repo.git" ∈
      (initializeRepository wGitEnvStaleUpstream "user/fork" "dev" "up/repo" "user-token").2 ∧
    (∀ u, GitEvent.clone u ∉
      (initializeRepository wGitEnvStaleUpstream "user/fork" "dev" "up/repo" "user-token").2) ∧
    GitEvent.clone "https://user-token@github.com/user/fork.git" ∈
      (initializeRepository { wGitEnvBase with checkIsRepo := Except.ok false }
        "user/fork" "dev" "up/repo" "user-token").2 := by
  obtain ⟨p1, p2, p3⟩ := claim_C9_initialize_remote_refresh
  refine ⟨?_, ?_, ?_, ?_⟩
  · exact (p1 wGitEnvStaleUpstream "user/fork" "dev" "up/repo" "user-token" rfl).2
  · exact p2 wGitEnvStaleUpstream "user/fork" "dev" "up/repo" "user-token" _
      { name := "upstream", url := "https://some-other-url.com/up/repo.git" }
      rfl rfl rfl rfl (by decide)
  · exact (p1 wGitEnvStaleUpstream "user/fork" "dev" "up/repo" "user-token" rfl).1
  · exact p3 { wGitEnvBase with checkIsRepo := Except.ok false }
      "user/fork" "dev" "up/repo" "user-token" rfl

/-- C2 witness: a concrete two-pair batch in which the first pair throws
processes both pairs, counts one failure and flips the batch flag. -/
theorem claim_C2_witness :
    ∃ res, startSync wRunPair wAccount2 {} = SyncRunResult.completed res ∧
      res.details.length = 2 ∧
      res.failedRepos = (res.details.filter (fun o => o.success = false)).length ∧
      res.failedRepos = 1 ∧
      res.success = false := by
  obtain ⟨res, h1, h2, h3, h4, h5⟩ := claim_C2_batch_isolation wRunPair wAccount2
  refine ⟨res, h1, ?_, h3, ?_, ?_⟩
  · rw [h2]
    rfl
  · rw [h3, h2]
    rfl
  · rw [h4, h2]
    rfl
